import Mathlib

/-!
Verification development for the ContextualAI-Docs frontend.

The client code (React/TypeScript) is shallowly embedded: each event
handler or helper of `ChatInterface.tsx`, `App.tsx` and
`DocumentLibrary.tsx` becomes a pure Lean function over explicit state,
and external effects (HTTP requests, WebSocket operations) are recorded
as an explicit action trace.  `JSON.parse` applied to a metadata string
is modelled abstractly by a parameter `jsonParse : String → Option
MetaData`, following the declared return type of `parseMetadata` in the
source (`none` models a parse error, i.e. the `catch` branch).
-/

namespace ContextualAI

/-- A single source citation, from the `SourceCitation` interface of
`ChatInterface.tsx`.  The similarity `score` is carried as a rational;
no claim below computes with it. -/
structure SourceCitation where
  document_id : String
  filename : String
  chunk_position : Nat
  score : Rat
deriving DecidableEq, Repr

/-- The structured metadata object `{ sources?: SourceCitation[] }`. -/
structure MetaData where
  sources : Option (List SourceCitation) := none
deriving DecidableEq, Repr

/-- The runtime shape of the `metadata` field of a `ChatMessage`:
`undefined`, a JSON string, or an already-structured object
(`metadata?: string | { sources?: SourceCitation[] }` in the source). -/
inductive MetaVal where
  | undef : MetaVal
  | str : String → MetaVal
  | obj : MetaData → MetaVal
deriving DecidableEq, Repr

/-- Message role: `'user' | 'ai'`. -/
inductive Role where
  | user : Role
  | ai : Role
deriving DecidableEq, Repr

/-- The `ChatMessage` interface of `ChatInterface.tsx`. -/
structure ChatMessage where
  id : Nat
  session : Nat
  role : Role
  content : String
  timestamp : String
  metadata : MetaVal := .undef
deriving DecidableEq, Repr

/-- The helper `parseMetadata` (ChatInterface.tsx lines 50-66).  `!metadata` is
truthiness: `undefined` and the empty string are falsy and yield `{}`
without attempting a parse; a non-empty string is `JSON.parse`d, the
`catch` branch yielding `{}`; a structured object is returned as is. -/
def parseMetadata (jsonParse : String → Option MetaData) : MetaVal → MetaData
  | .undef => {}
  | .str s =>
      if s = "" then {}
      else
        match jsonParse s with
        | some parsed => parsed
        | none => {}
  | .obj m => m

/-- The `ws.current.onmessage` state update (ChatInterface.tsx lines
197-210): if a message with the received id is already in the list the
list is returned unchanged; otherwise the received message, with its
metadata parsed, is appended. -/
def wsUpdateMessages (jsonParse : String → Option MetaData)
    (prev : List ChatMessage) (received : ChatMessage) : List ChatMessage :=
  if prev.any (fun msg => msg.id == received.id) then prev
  else prev ++ [{ received with metadata := .obj (parseMetadata jsonParse received.metadata) }]

/-- The metadata-parsing `data.map` of `fetchMessages` (ChatInterface.tsx
lines 136-143): every fetched message is stored with parsed metadata. -/
def ingestFetched (jsonParse : String → Option MetaData)
    (data : List ChatMessage) : List ChatMessage :=
  data.map (fun msg => { msg with metadata := .obj (parseMetadata jsonParse msg.metadata) })

/-- The render-time metadata computation (ChatInterface.tsx line 369):
`const parsedMetadata = parseMetadata(message.metadata)`. -/
def renderMetadata (jsonParse : String → Option MetaData) (m : ChatMessage) : MetaData :=
  parseMetadata jsonParse m.metadata

/-- Modelled from the spec (§9 design note): a render path that performs
no parsing, reading only already-structured metadata and treating
anything else as absent. -/
def renderMetadataNoReparse (m : ChatMessage) : MetaData :=
  match m.metadata with
  | .obj md => md
  | _ => {}

/-- A message whose metadata is not a legacy JSON string. -/
def nonStringMeta (m : ChatMessage) : Prop :=
  ∀ s, m.metadata ≠ MetaVal.str s

instance (m : ChatMessage) : Decidable (nonStringMeta m) := by
  unfold nonStringMeta
  cases h : m.metadata with
  | undef => exact isTrue (by simp [h])
  | str s => exact isFalse (by simp [h])
  | obj md => exact isTrue (by simp [h])

/-- External effects the client can perform, recorded as a trace. -/
inductive ClientAction where
  | httpGet : String → ClientAction
  | httpPost : String → String → ClientAction
  | wsConnect : String → ClientAction
  | wsClose : ClientAction
  | wsSend : String → ClientAction
deriving DecidableEq, Repr

/-- API base used throughout the frontend. -/
def apiBase : String := "http://127.0.0.1:8000"

/-- URL of the HTTP send endpoint for a session (ChatInterface.tsx line 294). -/
def sendUrl (sid : Nat) : String :=
  apiBase ++ "/api/chat/sessions/" ++ toString sid ++ "/send/"

/-- URL of the list_messages endpoint for a session (ChatInterface.tsx line 120). -/
def messagesUrl (sid : Nat) : String :=
  apiBase ++ "/api/chat/sessions/" ++ toString sid ++ "/messages/"

/-- WebSocket subscription URL for a session (ChatInterface.tsx line 176). -/
def wsUrl (sid : Nat) (token : String) : String :=
  "ws://127.0.0.1:8000/ws/chat/" ++ toString sid ++ "/?token=" ++ token

/-- Outcome of an HTTP request as seen by the handler: `response.ok`, or
the error message thrown from the `!response.ok` branch. -/
inductive HttpOutcome where
  | ok : HttpOutcome
  | err : String → HttpOutcome
deriving DecidableEq, Repr

/-- JavaScript `String.prototype.trim`: strip leading and trailing whitespace.
Modelled structurally over the character list so that it evaluates. -/
def jsTrim (s : String) : String :=
  String.mk (((s.data.dropWhile Char.isWhitespace).reverse.dropWhile
    Char.isWhitespace).reverse)

/-- The optimistic user message built by `handleSendMessage`
(ChatInterface.tsx lines 284-290): `id = Date.now()`, role `'user'`, no
metadata key (undefined). -/
def mkUserMessage (now : Nat) (sid : Nat) (content timestamp : String) : ChatMessage :=
  { id := now, session := sid, role := .user, content := content,
    timestamp := timestamp, metadata := .undef }

/-- Result of one run of `handleSendMessage`: the relevant component
state afterwards plus the trace of external actions performed. -/
structure SendResult where
  messages : List ChatMessage
  newMessageContent : String
  sendMessageError : Option String
  trace : List ClientAction
deriving DecidableEq, Repr

/-- The handler `handleSendMessage` (ChatInterface.tsx lines 271-316).  Empty
(after trim) content or no selected session only sets the error.
Otherwise the optimistic user message is appended and the content
cleared, then the message is POSTed to the session's send endpoint; on
a non-ok response the handler filters the optimistic message's id back
out of the list and records the thrown error. -/
def handleSendMessage (prev : List ChatMessage) (content : String)
    (sid : Option Nat) (now : Nat) (timestamp : String)
    (outcome : HttpOutcome) : SendResult :=
  match sid with
  | none =>
      { messages := prev, newMessageContent := content,
        sendMessageError := some "Message cannot be empty or no session selected.",
        trace := [] }
  | some s =>
      if jsTrim content = "" then
        { messages := prev, newMessageContent := content,
          sendMessageError := some "Message cannot be empty or no session selected.",
          trace := [] }
      else
        let userMessage := mkUserMessage now s content timestamp
        let appended := prev ++ [userMessage]
        match outcome with
        | .ok =>
            { messages := appended, newMessageContent := "",
              sendMessageError := none,
              trace := [.httpPost (sendUrl s) content] }
        | .err msg =>
            { messages := appended.filter (fun m => m.id != userMessage.id),
              newMessageContent := "",
              sendMessageError := some msg,
              trace := [.httpPost (sendUrl s) content] }

/-- Trace of the WebSocket connection effect (ChatInterface.tsx lines
162-237) when it runs: with no selected session it only closes any open
socket; with no stored token it does nothing; otherwise it closes any
open socket and opens a new connection for the selected session.  The
effect installs handlers but writes no data to the socket. -/
def wsEffectTrace (sid : Option Nat) (token : Option String)
    (hadOpenSocket : Bool) : List ClientAction :=
  match sid with
  | none => if hadOpenSocket then [.wsClose] else []
  | some s =>
      match token with
      | none => []
      | some t =>
          (if hadOpenSocket then [.wsClose] else []) ++ [.wsConnect (wsUrl s t)]

/-- Trace of the `onmessage` handler: it only updates component state
(`setMessages`), performing no external action. -/
def wsOnMessageTrace : List ClientAction := []

/-- Trace of the `onclose` handler: it only logs and possibly schedules
a `setSelectedSessionId` call, performing no external action. -/
def wsOnCloseTrace : List ClientAction := []

/-- The reconnect decision of the `onclose` handler (ChatInterface.tsx
line 223): a reconnection attempt is scheduled exactly when the close
code is not the normal closure code 1000. -/
def scheduleReconnect (code : Nat) : Bool := code != 1000

/-- The fixed reconnect delay of the `onclose` handler (line 227). -/
def reconnectDelayMs : Nat := 3000

/-- Number of reconnection attempts the `onclose` handler schedules over
a sequence of close events: one per abnormal close code, with no
attempt counter anywhere in the component. -/
def reconnectAttempts (codes : List Nat) : Nat :=
  (codes.filter scheduleReconnect).length

/-- The slice of `ChatInterface` component state relevant to the
reconnect path: the selected session id, and how many times the
message-fetch effect has run (`fetchGen`) and how many WebSocket
connections have been opened (`wsGen`). -/
structure ClientState where
  selectedSessionId : Option Nat
  fetchGen : Nat
  wsGen : Nat
deriving DecidableEq, Repr

/-- React semantics of `setSelectedSessionId v`: setting a state hook to
a value equal (`Object.is`) to the current one bails out — no re-render
and no effect re-runs.  On an actual change, the `fetchMessages` effect
(dependency: the `useCallback` identity, which changes with
`selectedSessionId`) re-runs, and the WebSocket effect (dependency
`[selectedSessionId]`) re-runs, opening a socket when a session is
selected. -/
def setSelectedSessionId (s : ClientState) (v : Option Nat) : ClientState :=
  if v = s.selectedSessionId then s
  else
    { selectedSessionId := v,
      fetchGen := s.fetchGen + 1,
      wsGen := s.wsGen + (if v.isSome then 1 else 0) }

/-- The `onclose` handler (ChatInterface.tsx lines 221-229) as a state
transformer: on an abnormal close it schedules
`setSelectedSessionId(selectedSessionId)` — the current, unchanged
value; on normal closure it does nothing. -/
def onCloseHandler (code : Nat) (s : ClientState) : ClientState :=
  if code != 1000 then setSelectedSessionId s s.selectedSessionId else s

/-- The displayed sources of a message's render (ChatInterface.tsx line
386): the sources block is rendered exactly for `'ai'` messages whose
parsed metadata holds a present, non-empty sources array. -/
def showSources (jsonParse : String → Option MetaData) (m : ChatMessage) : Bool :=
  m.role == .ai &&
    (match (parseMetadata jsonParse m.metadata).sources with
     | some srcs => srcs.length > 0
     | none => false)

/-- Modelled from the spec (§3, backend Chat Session Manager /
Generation Orchestrator are not in the frontend sources): `sources` is
present only on `ai` messages, so a `user` message carries no sources. -/
def specNoUserSources (jsonParse : String → Option MetaData) (m : ChatMessage) : Prop :=
  m.role = .user → (parseMetadata jsonParse m.metadata).sources = none

/-- Badge colors of the document-list status column. -/
inductive StatusBadge where
  | green : StatusBadge
  | yellow : StatusBadge
  | red : StatusBadge
deriving DecidableEq, Repr

/-- The status classification of `DocumentLibrary` (lines 214-222 of the
component): green for `'completed'`, yellow for `'processing'`, red for
everything else. -/
def statusBadge (status : String) : StatusBadge :=
  if status = "completed" then .green
  else if status = "processing" then .yellow
  else .red

/-- Modelled from the spec (§3, the backend Document model is not in the
frontend sources): the status domain of a Document is exactly
{uploaded, processing, ready, failed}. -/
inductive DocStatus where
  | uploaded : DocStatus
  | processing : DocStatus
  | ready : DocStatus
  | failed : DocStatus
deriving DecidableEq, Repr

/-- The wire string of a spec-modelled Document status. -/
def DocStatus.wire : DocStatus → String
  | .uploaded => "uploaded"
  | .processing => "processing"
  | .ready => "ready"
  | .failed => "failed"

/-- Decoded JWT payload as used by `fetchWithAuth`: only the `exp` field
(seconds since epoch) is consulted. -/
structure DecodedJwt where
  exp : Nat
deriving DecidableEq, Repr

/-- JavaScript truthiness of a nullable string: `null`/absent and the
empty string are falsy. -/
def jsTruthy : Option String → Option String
  | none => none
  | some s => if s = "" then none else some s

/-- Outcome of a `fetchWithAuth` call: either the request was issued
bearing the given token, or the call threw; `loggedOut` records whether
`handleLogout` ran (directly or inside `refreshAccessToken`'s catch). -/
structure AuthOutcome where
  result : Except String String
  loggedOut : Bool
deriving Repr

/-- Embedding of `fetchWithAuth` (App.tsx lines 66-100) together with the
failure behavior of `refreshAccessToken` (lines 37-63).  `decode`
models `decodeJwt` (returning `none` on a decode error), `now` is
`Date.now()` in milliseconds, and `refreshOutcome` is the access token
returned by the refresh endpoint (`none`: the refresh fails, in which
case `refreshAccessToken` logs out and returns `null`).  A `null`
access token after the branch falls into the
`throw new Error("Authentication required.")` guard. -/
def fetchWithAuth (decode : String → Option DecodedJwt) (now : Nat)
    (refreshOutcome : Option String)
    (authToken refreshToken : Option String) : AuthOutcome :=
  let refreshed : AuthOutcome :=
    match refreshOutcome with
    | some newTok =>
        match jsTruthy (some newTok) with
        | some t => { result := .ok t, loggedOut := false }
        | none => { result := .error "Authentication required.", loggedOut := false }
    | none => { result := .error "Authentication required.", loggedOut := true }
  match jsTruthy authToken with
  | some tok =>
      match decode tok with
      | some d =>
          if d.exp * 1000 < now then
            match jsTruthy refreshToken with
            | some _ => refreshed
            | none => { result := .error "Authentication required.", loggedOut := true }
          else { result := .ok tok, loggedOut := false }
      | none => { result := .ok tok, loggedOut := false }
  | none =>
      match jsTruthy refreshToken with
      | some _ => refreshed
      | none => { result := .error "Authentication required.", loggedOut := true }

/-- Predicate: `fetchWithAuth` has determined its stored access token expired: the
token is (truthily) present, decodes, and its expiry is in the past. -/
def determinedExpired (decode : String → Option DecodedJwt) (now : Nat)
    (authToken : Option String) (t : String) : Prop :=
  jsTruthy authToken = some t ∧ ∃ d, decode t = some d ∧ d.exp * 1000 < now

/-! Concrete values used by witnesses. -/

/-- A concrete source citation. -/
def srcEx : SourceCitation :=
  { document_id := "doc-1", filename := "notes.txt", chunk_position := 2, score := 9 / 10 }

/-- A concrete JSON-parse model: the string "good" parses to a metadata
object with one source, everything else is invalid JSON. -/
def jsonParseEx : String → Option MetaData :=
  fun s => if s = "good" then some { sources := some [srcEx] } else none

/-- A concrete ai message carrying string-encoded metadata. -/
def mEx : ChatMessage :=
  { id := 7, session := 1, role := .ai, content := "hello",
    timestamp := "t0", metadata := .str "good" }

/-- The ids of a message list. -/
def msgIds (l : List ChatMessage) : List Nat := l.map (fun m => m.id)

theorem any_id_beq (prev : List ChatMessage) (i : Nat) :
    prev.any (fun msg => msg.id == i) = true ↔ i ∈ msgIds prev := by
  simp only [msgIds, List.any_eq_true, List.mem_map, beq_iff_eq]

theorem wsUpdate_of_mem (p : String → Option MetaData) (prev : List ChatMessage)
    (m : ChatMessage) (h : m.id ∈ msgIds prev) :
    wsUpdateMessages p prev m = prev := by
  unfold wsUpdateMessages
  rw [if_pos ((any_id_beq prev m.id).mpr h)]

theorem msgIds_wsUpdate (p : String → Option MetaData) (prev : List ChatMessage)
    (m : ChatMessage) :
    msgIds (wsUpdateMessages p prev m) =
      if m.id ∈ msgIds prev then msgIds prev else msgIds prev ++ [m.id] := by
  by_cases h : m.id ∈ msgIds prev
  · rw [if_pos h, wsUpdate_of_mem p prev m h]
  · rw [if_neg h]
    unfold wsUpdateMessages
    rw [if_neg (by rw [any_id_beq prev m.id] at *; simp [h])]
    simp [msgIds]

theorem nodup_msgIds_wsUpdate (p : String → Option MetaData) (prev : List ChatMessage)
    (m : ChatMessage) (h : (msgIds prev).Nodup) :
    (msgIds (wsUpdateMessages p prev m)).Nodup := by
  rw [msgIds_wsUpdate]
  by_cases hm : m.id ∈ msgIds prev
  · simpa [hm] using h
  · simp [hm, List.nodup_append, h]

theorem mem_msgIds_wsUpdate_self (p : String → Option MetaData) (prev : List ChatMessage)
    (m : ChatMessage) : m.id ∈ msgIds (wsUpdateMessages p prev m) := by
  rw [msgIds_wsUpdate]
  by_cases hm : m.id ∈ msgIds prev <;> simp [hm]

theorem mem_msgIds_wsUpdate_mono (p : String → Option MetaData) (prev : List ChatMessage)
    (m : ChatMessage) (i : Nat) (h : i ∈ msgIds prev) :
    i ∈ msgIds (wsUpdateMessages p prev m) := by
  rw [msgIds_wsUpdate]
  by_cases hm : m.id ∈ msgIds prev <;> simp [hm, h]

theorem nodup_msgIds_foldl (p : String → Option MetaData) (pushes : List ChatMessage) :
    ∀ prev : List ChatMessage, (msgIds prev).Nodup →
      (msgIds (pushes.foldl (wsUpdateMessages p) prev)).Nodup := by
  induction pushes with
  | nil => intro prev h; simpa using h
  | cons hd tl ih =>
      intro prev h
      exact ih (wsUpdateMessages p prev hd) (nodup_msgIds_wsUpdate p prev hd h)

theorem mem_msgIds_foldl_mono (p : String → Option MetaData) (pushes : List ChatMessage)
    (i : Nat) : ∀ prev : List ChatMessage, i ∈ msgIds prev →
      i ∈ msgIds (pushes.foldl (wsUpdateMessages p) prev) := by
  induction pushes with
  | nil => intro prev h; simpa using h
  | cons hd tl ih =>
      intro prev h
      exact ih (wsUpdateMessages p prev hd) (mem_msgIds_wsUpdate_mono p prev hd i h)

theorem mem_msgIds_foldl_of_pushed (p : String → Option MetaData) (pushes : List ChatMessage)
    (m : ChatMessage) (hm : m ∈ pushes) :
    ∀ prev : List ChatMessage, m.id ∈ msgIds (pushes.foldl (wsUpdateMessages p) prev) := by
  induction pushes with
  | nil => cases hm
  | cons hd tl ih =>
      intro prev
      rcases List.mem_cons.mp hm with heq | htl
      · subst heq
        exact mem_msgIds_foldl_mono p tl m.id (wsUpdateMessages p prev m)
          (mem_msgIds_wsUpdate_self p prev m)
      · exact ih htl (wsUpdateMessages p prev hd)

/-- C1: a WebSocket push whose id is already in the message list leaves
the list unchanged, and — starting from a list with no duplicate ids —
after any sequence of pushes containing a message `m` at least once, the
id of `m` appears exactly once in the displayed list. -/
theorem c1_ws_dedup_exactly_once (p : String → Option MetaData)
    (prev : List ChatMessage) (m : ChatMessage) :
    (m.id ∈ msgIds prev → wsUpdateMessages p prev m = prev) ∧
    ((msgIds prev).Nodup → ∀ pushes : List ChatMessage, m ∈ pushes →
      (msgIds (pushes.foldl (wsUpdateMessages p) prev)).count m.id = 1) := by
  refine ⟨wsUpdate_of_mem p prev m, ?_⟩
  intro hnd pushes hm
  exact List.count_eq_one_of_mem (nodup_msgIds_foldl p pushes prev hnd)
    (mem_msgIds_foldl_of_pushed p pushes m hm prev)

/-- Witness for C1: pushing the same concrete message twice into an
empty list leaves its id appearing exactly once, and re-pushing it into
a list already containing it is a no-op. -/
theorem c1_witness :
    wsUpdateMessages jsonParseEx [mEx] mEx = [mEx] ∧
    (msgIds ([mEx, mEx].foldl (wsUpdateMessages jsonParseEx) [])).count mEx.id = 1 :=
  ⟨(c1_ws_dedup_exactly_once jsonParseEx [mEx] mEx).1 (by simp [msgIds]),
   (c1_ws_dedup_exactly_once jsonParseEx [] mEx).2 (by simp [msgIds]) [mEx, mEx] (by simp)⟩

/-- C10: `parseMetadata` is total: it returns `{}` on undefined
metadata, `{}` (rather than raising) on a string that does not parse,
the parsed object on a string that does, and an already-structured
object unchanged — so re-applying it to its own (structured) result is
the identity. -/
theorem c10_parseMetadata_total (p : String → Option MetaData) (s : String)
    (md : MetaData) (v : MetaVal) :
    parseMetadata p .undef = {} ∧
    (s ≠ "" → p s = none → parseMetadata p (.str s) = {}) ∧
    (s ≠ "" → p s = some md → parseMetadata p (.str s) = md) ∧
    parseMetadata p (.obj md) = md ∧
    parseMetadata p (.obj (parseMetadata p v)) = parseMetadata p v := by
  refine ⟨rfl, ?_, ?_, rfl, rfl⟩
  · intro hs hp; simp [parseMetadata, hs, hp]
  · intro hs hp; simp [parseMetadata, hs, hp]

/-- Witness for C10 at a concrete parse model and concrete strings. -/
theorem c10_witness :
    parseMetadata jsonParseEx .undef = {} ∧
    parseMetadata jsonParseEx (.str "bad") = {} ∧
    parseMetadata jsonParseEx (.str "good") = { sources := some [srcEx] } ∧
    parseMetadata jsonParseEx (.obj (parseMetadata jsonParseEx (.str "good"))) =
      parseMetadata jsonParseEx (.str "good") := by
  refine ⟨(c10_parseMetadata_total jsonParseEx "x" {} .undef).1,
    (c10_parseMetadata_total jsonParseEx "bad" {} .undef).2.1 (by decide)
      (by simp [jsonParseEx]),
    (c10_parseMetadata_total jsonParseEx "good" { sources := some [srcEx] } .undef).2.2.1
      (by decide) (by simp [jsonParseEx]),
    (c10_parseMetadata_total jsonParseEx "x" {} (.str "good")).2.2.2.2⟩

theorem reconnectAttempts_replicate (n : Nat) :
    reconnectAttempts (List.replicate n 1006) = n := by
  induction n with
  | zero => rfl
  | succ k ih =>
      simp only [List.replicate_succ, reconnectAttempts, List.filter_cons] at ih ⊢
      simp only [show scheduleReconnect 1006 = true from rfl, if_pos, List.length_cons]
      omega

/-- C2 counterexample: there is no bound on the number of reconnection
attempts the onclose handler schedules — for every candidate cap, a long
enough run of abnormal closures (code 1006) schedules more attempts. -/
theorem c2_counterexample :
    ¬ ∃ N : Nat, ∀ codes : List Nat, reconnectAttempts codes ≤ N := by
  rintro ⟨N, hN⟩
  have h := hN (List.replicate (N + 1) 1006)
  rw [reconnectAttempts_replicate] at h
  omega

/-- C2 amended: the onclose handler schedules a reconnection attempt —
after a fixed 3000 ms delay — exactly on abnormal closures (close code
≠ 1000), and with no retry counter anywhere a run of n abnormal
closures schedules n attempts: the retry behavior is uncapped. -/
theorem c2_retry_uncapped (code : Nat) (codes : List Nat) :
    (scheduleReconnect code = true ↔ code ≠ 1000) ∧
    reconnectDelayMs = 3000 ∧
    ((∀ c ∈ codes, c ≠ 1000) → reconnectAttempts codes = codes.length) := by
  refine ⟨by simp [scheduleReconnect], rfl, ?_⟩
  intro h
  unfold reconnectAttempts
  rw [List.filter_eq_self.mpr]
  intro c hc
  simpa [scheduleReconnect] using h c hc

/-- Witness for C2's amended statement at a concrete closure run. -/
theorem c2_witness :
    scheduleReconnect 1006 = true ∧ reconnectAttempts [1006, 1006, 1006] = 3 :=
  ⟨(c2_retry_uncapped 1006 []).1.mpr (by decide),
   (c2_retry_uncapped 0 [1006, 1006, 1006]).2.2 (by decide)⟩

/-- C3: the onclose handler is a no-op on the component state — the
scheduled `setSelectedSessionId` call passes the current, unchanged
session id, React bails out on an identical state value and neither the
message-fetch effect nor the WebSocket effect re-runs: after an
abnormal closure no re-fetch happens and no new subscription is
opened. -/
theorem c3_reconnect_noop (code : Nat) (s : ClientState) :
    onCloseHandler code s = s := by
  unfold onCloseHandler setSelectedSessionId
  by_cases h : (code != 1000) = true <;> simp [h]

/-- C4 counterexample: the render path does re-parse — on a message
whose metadata is a JSON string the render-time computation (line 369)
parses it and yields sources, differing from a parse-free read. -/
theorem c4_counterexample :
    renderMetadata jsonParseEx mEx ≠ renderMetadataNoReparse mEx := by
  simp [renderMetadata, renderMetadataNoReparse, parseMetadata, mEx, jsonParseEx]

/-- C4 amended: string metadata is parsed at both ingress edges (HTTP
fetch and WebSocket receipt), so no stored message carries string
metadata and the optimistic user message carries none; the render path
re-applies `parseMetadata` defensively, and on every non-string-metadata
message that re-parse agrees with a parse-free read (it is a no-op on
state contents). -/
theorem c4_ingress_parse (p : String → Option MetaData)
    (data prev : List ChatMessage) (received m : ChatMessage) :
    (m ∈ ingestFetched p data → nonStringMeta m) ∧
    ((∀ x ∈ prev, nonStringMeta x) → m ∈ wsUpdateMessages p prev received → nonStringMeta m) ∧
    (∀ now sid content timestamp, nonStringMeta (mkUserMessage now sid content timestamp)) ∧
    (nonStringMeta m → renderMetadata p m = renderMetadataNoReparse m) := by
  refine ⟨?_, ?_, ?_, ?_⟩
  · intro hm
    obtain ⟨x, _, hx⟩ := List.mem_map.mp hm
    intro s
    rw [← hx]
    simp
  · intro hprev hm
    unfold wsUpdateMessages at hm
    by_cases hc : prev.any (fun msg => msg.id == received.id) = true
    · rw [if_pos hc] at hm
      exact hprev m hm
    · rw [if_neg hc] at hm
      rcases List.mem_append.mp hm with hl | hr
      · exact hprev m hl
      · intro s
        rw [List.mem_singleton.mp hr]
        simp
  · intro now sid content timestamp s
    simp [mkUserMessage]
  · intro hns
    unfold renderMetadata renderMetadataNoReparse
    cases hmv : m.metadata with
    | undef => rfl
    | str s => exact absurd hmv (hns s)
    | obj md => rfl

/-- Witness for C4's amended statement: the optimistic user message and
a WebSocket-ingressed message carry non-string metadata, and the render
re-parse is a no-op on them. -/
theorem c4_witness :
    nonStringMeta (mkUserMessage 42 1 "hi" "t2") ∧
    renderMetadata jsonParseEx (mkUserMessage 42 1 "hi" "t2") =
      renderMetadataNoReparse (mkUserMessage 42 1 "hi" "t2") ∧
    nonStringMeta { mEx with metadata := .obj { sources := some [srcEx] } } := by
  have h := c4_ingress_parse jsonParseEx [] [] mEx (mkUserMessage 42 1 "hi" "t2")
  have h2 := c4_ingress_parse jsonParseEx [] [] mEx
    { mEx with metadata := .obj { sources := some [srcEx] } }
  refine ⟨h.2.2.1 42 1 "hi" "t2", h.2.2.2 (h.2.2.1 42 1 "hi" "t2"), ?_⟩
  refine h2.2.1 (by intro x hx; cases hx) ?_
  simp [wsUpdateMessages, parseMetadata, mEx, jsonParseEx, msgIds]

/-- C5: on the spec-modelled status domain {uploaded, processing,
ready, failed}, the DocumentLibrary status column never shows the
success badge: `ready` is styled with the failure badge exactly like
`failed`, while the success badge is reserved for `completed`, a value
outside the status domain. -/
theorem c5_status_misclassified :
    statusBadge (DocStatus.ready).wire = .red ∧
    statusBadge (DocStatus.failed).wire = .red ∧
    statusBadge (DocStatus.uploaded).wire = .red ∧
    statusBadge (DocStatus.processing).wire = .yellow ∧
    statusBadge "completed" = .green := by
  decide

/-- C6: the sources block is displayed exactly for `ai` messages whose
parsed metadata holds a present, non-empty sources array; a `user`
message never displays a sources block, and the client-built optimistic
user message satisfies the spec's no-sources-on-user invariant. -/
theorem c6_sources_ai_only (p : String → Option MetaData) (m : ChatMessage) :
    (showSources p m = true ↔
      m.role = .ai ∧ ∃ srcs, (parseMetadata p m.metadata).sources = some srcs ∧ srcs ≠ []) ∧
    (m.role = .user → showSources p m = false) ∧
    (∀ now sid content timestamp,
      specNoUserSources p (mkUserMessage now sid content timestamp) ∧
      showSources p (mkUserMessage now sid content timestamp) = false) := by
  have hshow : ∀ mm : ChatMessage, showSources p mm = true ↔
      mm.role = .ai ∧ ∃ srcs, (parseMetadata p mm.metadata).sources = some srcs ∧ srcs ≠ [] := by
    intro mm
    unfold showSources
    cases hr : mm.role <;> cases hs : (parseMetadata p mm.metadata).sources <;>
      simp [hr, hs, List.length_pos]
  refine ⟨hshow m, ?_, ?_⟩
  · intro hu
    cases hb : showSources p m with
    | false => rfl
    | true => rw [((hshow m).mp hb).1] at hu; cases hu
  · intro now sid content timestamp
    constructor
    · intro _
      rfl
    · cases hb : showSources p (mkUserMessage now sid content timestamp) with
      | false => rfl
      | true =>
          have := ((hshow (mkUserMessage now sid content timestamp)).mp hb).1
          simp [mkUserMessage] at this


/-- Witness for C6: the concrete ai message with a non-empty parsed
sources array shows the block; a concrete optimistic user message does
not. -/
theorem c6_witness :
    showSources jsonParseEx mEx = true ∧
    showSources jsonParseEx (mkUserMessage 42 1 "hi" "t2") = false :=
  ⟨(c6_sources_ai_only jsonParseEx mEx).1.mpr
      ⟨rfl, [srcEx], by simp [parseMetadata, mEx, jsonParseEx], by simp⟩,
   ((c6_sources_ai_only jsonParseEx mEx).2.2 42 1 "hi" "t2").2⟩

/-- C7: a user send issues exactly one HTTP POST to the session's send
endpoint, and no client code path — the send handler, the WebSocket
connection effect, or the socket's message/close handlers — ever emits
a WebSocket write. -/
theorem c7_no_ws_send (prev : List ChatMessage) (content : String)
    (sid : Option Nat) (now : Nat) (timestamp : String) (outcome : HttpOutcome)
    (token : Option String) (hadOpenSocket : Bool) (d : String) :
    (∀ s, sid = some s → jsTrim content ≠ "" →
      (handleSendMessage prev content sid now timestamp outcome).trace =
        [.httpPost (sendUrl s) content]) ∧
    ClientAction.wsSend d ∉ (handleSendMessage prev content sid now timestamp outcome).trace ∧
    ClientAction.wsSend d ∉ wsEffectTrace sid token hadOpenSocket ∧
    ClientAction.wsSend d ∉ wsOnMessageTrace ∧
    ClientAction.wsSend d ∉ wsOnCloseTrace := by
  refine ⟨?_, ?_, ?_, by simp [wsOnMessageTrace], by simp [wsOnCloseTrace]⟩
  · rintro s rfl hc
    cases outcome <;> simp [handleSendMessage, hc]
  · cases sid with
    | none => simp [handleSendMessage]
    | some s =>
        by_cases hc : jsTrim content = "" <;> cases outcome <;>
          simp [handleSendMessage, hc]
  · cases sid with
    | none => cases hadOpenSocket <;> simp [wsEffectTrace]
    | some s =>
        cases token with
        | none => simp [wsEffectTrace]
        | some t => cases hadOpenSocket <;> simp [wsEffectTrace]

/-- Witness for C7: a concrete successful send performs exactly the
HTTP POST, and a concrete WebSocket effect run writes nothing. -/
theorem c7_witness :
    (handleSendMessage [] "hi" (some 1) 42 "t2" .ok).trace = [.httpPost (sendUrl 1) "hi"] ∧
    ClientAction.wsSend "x" ∉ wsEffectTrace (some 1) (some "tok") true :=
  ⟨(c7_no_ws_send [] "hi" (some 1) 42 "t2" .ok (some "tok") true "x").1 1 rfl (by decide),
   (c7_no_ws_send [] "hi" (some 1) 42 "t2" .ok (some "tok") true "x").2.2.1⟩

/-- C8: when the optimistic id is fresh, a failed send rolls back
exactly the optimistic message — the list after the failed send equals
the list before the call, and the thrown error is recorded. -/
theorem c8_send_rollback (prev : List ChatMessage) (content : String)
    (s now : Nat) (timestamp errMsg : String)
    (hc : jsTrim content ≠ "") (hfresh : now ∉ msgIds prev) :
    (handleSendMessage prev content (some s) now timestamp (.err errMsg)).messages = prev ∧
    (handleSendMessage prev content (some s) now timestamp (.err errMsg)).sendMessageError
      = some errMsg := by
  have heq : handleSendMessage prev content (some s) now timestamp (.err errMsg) =
      { messages := (prev ++ [mkUserMessage now s content timestamp]).filter
          (fun m => m.id != (mkUserMessage now s content timestamp).id),
        newMessageContent := "",
        sendMessageError := some errMsg,
        trace := [.httpPost (sendUrl s) content] } := by
    simp [handleSendMessage, hc]
  rw [heq]
  refine ⟨?_, rfl⟩
  rw [List.filter_append]
  have h1 : prev.filter (fun m => m.id != (mkUserMessage now s content timestamp).id)
      = prev := by
    apply List.filter_eq_self.mpr
    intro a ha
    have hmem : a.id ∈ msgIds prev := List.mem_map_of_mem (fun m => m.id) ha
    simp only [mkUserMessage, bne_iff_ne, ne_eq]
    intro hid
    exact hfresh (hid ▸ hmem)
  have h2 : [mkUserMessage now s content timestamp].filter
      (fun m => m.id != (mkUserMessage now s content timestamp).id) = [] := by
    simp
  rw [h1, h2, List.append_nil]

/-- Witness for C8 at a concrete list, content and error. -/
theorem c8_witness :
    (handleSendMessage [mEx] "hi" (some 1) 42 "t2" (.err "boom")).messages = [mEx] ∧
    (handleSendMessage [mEx] "hi" (some 1) 42 "t2" (.err "boom")).sendMessageError
      = some "boom" :=
  c8_send_rollback [mEx] "hi" 1 42 "t2" "boom" (by decide) (by decide)

/-- C9: `fetchWithAuth` never sends a token it has determined expired —
any request issued after that determination bears the token returned by
the refresh endpoint; and whenever no access token can be obtained (no
tokens stored, expired with no refresh token, or a failed refresh) it
logs out and throws "Authentication required." instead of sending. -/
theorem c9_fetchWithAuth_refresh (decode : String → Option DecodedJwt) (now : Nat)
    (refreshOutcome : Option String) (authToken refreshToken : Option String)
    (t : String) :
    (determinedExpired decode now authToken t →
      ∀ u, (fetchWithAuth decode now refreshOutcome authToken refreshToken).result = .ok u →
        refreshOutcome = some u) ∧
    (jsTruthy authToken = none → jsTruthy refreshToken = none →
      (fetchWithAuth decode now refreshOutcome authToken refreshToken).result
          = .error "Authentication required." ∧
      (fetchWithAuth decode now refreshOutcome authToken refreshToken).loggedOut = true) ∧
    (determinedExpired decode now authToken t → jsTruthy refreshToken = none →
      (fetchWithAuth decode now refreshOutcome authToken refreshToken).result
          = .error "Authentication required." ∧
      (fetchWithAuth decode now refreshOutcome authToken refreshToken).loggedOut = true) ∧
    ((determinedExpired decode now authToken t ∨ jsTruthy authToken = none) →
      refreshOutcome = none →
      (fetchWithAuth decode now refreshOutcome authToken refreshToken).result
          = .error "Authentication required." ∧
      (fetchWithAuth decode now refreshOutcome authToken refreshToken).loggedOut = true) := by
  have jsT_nil : jsTruthy (some "") = none := rfl
  have jsT_ne : ∀ s : String, s ≠ "" → jsTruthy (some s) = some s := by
    intro s h
    simp [jsTruthy, h]
  refine ⟨?_, ?_, ?_, ?_⟩
  · rintro ⟨hta, d, hdec, hexp⟩ u hok
    rcases hrt : jsTruthy refreshToken with _ | r
    · simp [fetchWithAuth, hta, hdec, hexp, hrt] at hok
    · rcases hro : refreshOutcome with _ | newTok
      · simp [fetchWithAuth, hta, hdec, hexp, hrt, hro] at hok
      · by_cases hne : newTok = ""
        · subst hne
          simp [fetchWithAuth, hta, hdec, hexp, hrt, hro, jsT_nil] at hok
        · simp [fetchWithAuth, hta, hdec, hexp, hrt, hro, jsT_ne newTok hne] at hok
          rw [hok]
  · intro h1 h2
    constructor <;> simp [fetchWithAuth, h1, h2]
  · rintro ⟨hta, d, hdec, hexp⟩ hrt
    constructor <;> simp [fetchWithAuth, hta, hdec, hexp, hrt]
  · rintro (⟨hta, d, hdec, hexp⟩ | hta) hro
    · rcases hrt : jsTruthy refreshToken with _ | r <;>
        constructor <;> simp [fetchWithAuth, hta, hdec, hexp, hrt, hro]
    · rcases hrt : jsTruthy refreshToken with _ | r <;>
        constructor <;> simp [fetchWithAuth, hta, hrt, hro]

/-- A concrete JWT decoder: the string "expired" decodes to an expiry
of 10 seconds, everything else fails to decode. -/
def decodeEx : String → Option DecodedJwt :=
  fun s => if s = "expired" then some { exp := 10 } else none

/-- Witness for C9: with no tokens stored the call logs out and throws;
with an expired token and a working refresh, the issued token is the
refresh endpoint's. -/
theorem c9_witness :
    (fetchWithAuth decodeEx 20000 (some "fresh") none none).result
        = .error "Authentication required." ∧
    (fetchWithAuth decodeEx 20000 (some "fresh") none none).loggedOut = true ∧
    (some "fresh" : Option String) = some "fresh" :=
  ⟨((c9_fetchWithAuth_refresh decodeEx 20000 (some "fresh") none none "t").2.1 rfl rfl).1,
   ((c9_fetchWithAuth_refresh decodeEx 20000 (some "fresh") none none "t").2.1 rfl rfl).2,
   (c9_fetchWithAuth_refresh decodeEx 20000 (some "fresh") (some "expired") (some "r")
       "expired").1
     ⟨by simp [jsTruthy], { exp := 10 }, by simp [decodeEx], by decide⟩
     "fresh" (by simp [fetchWithAuth, decodeEx, jsTruthy])⟩

end ContextualAI
